import Mathlib

/-!
Verification of the ethspeed speed-test program (main.go).

The file shallowly embeds the server request handlers (`downloadHandler`,
`uploadHandler`, `parseBytes`), the client test runners (`runDownloadTest`,
`runUploadTest`), the client orchestrator loops (`runBothTests`,
`runDownloadTests`, `runUploadTests`), the client configuration check
(`Config.validate`, client branch) and the handlers' atomic
concurrency/peak-tracking block, and proves properties of the embedding.

Modelling conventions:
  * Go `int64` values are modelled as `Int` (no arithmetic here comes close
    to overflow: all byte counts are validated into `[2^20, 10*2^30]`).
  * `float64` arithmetic of the client-side throughput computation is
    modelled exactly over `ℚ`; `time.Duration` is an integer nanosecond
    count (`Int`), and `Duration.Seconds()` is division by 10^9 in `ℚ`.
  * Timestamps (`time.Now()`) are abstract `Nat` instants passed in.
  * Network effects (whether `http.NewRequest`/`Do`/`io.Copy` fail, the
    received status code, the number of body bytes, elapsed time) are
    oracle inputs to the embedded functions.
  * Each handler is given twice: a sequential (single in-flight request)
    model used for the functional claims, and a fine-grained interleaved
    model (`PeakState`/`sysStep`) of just the atomic
    increment / load / compare-and-swap / deferred-decrement block, used
    for the concurrency claims.
-/

namespace EthSpeed

/-! ## Constants (main.go `const` block) -/

/-- `downloadBufferSize = 1024 * 1024`: 1MB chunks for downloads. -/
def downloadBufferSize : Nat := 1024 * 1024

/-- `minBytes = 1 * 1024 * 1024`: 1MB minimum. -/
def minBytes : Int := 1 * 1024 * 1024

/-- `maxBytes = 10 * 1024 * 1024 * 1024`: 10GB maximum. -/
def maxBytes : Int := 10 * 1024 * 1024 * 1024

/-! ## `strconv.ParseInt(s, 10, 64)` (Go standard library)

Base-10 signed parsing: optional leading `+`/`-` sign, then one or more
ASCII digits; anything else is a syntax error; results outside the int64
range are a range error.  Both error kinds make `parseBytes` fail, so they
are collapsed into `none`. -/

/-- Numeric value of an ASCII digit character, `none` otherwise. -/
def digitVal (c : Char) : Option Nat :=
  if ('0' ≤ c ∧ c ≤ '9') then some (c.toNat - Char.toNat '0') else none

/-- Fold base-10 digits into an accumulator; `none` on a non-digit. -/
def digitsVal : List Char → Nat → Option Nat
  | [], acc => some acc
  | c :: cs, acc =>
    match digitVal c with
    | none => none
    | some d => digitsVal cs (acc * 10 + d)

/-- One or more base-10 digits; `none` if empty or any non-digit. -/
def parseDigits (cs : List Char) : Option Nat :=
  match cs with
  | [] => none
  | _ => digitsVal cs 0

/-- `strconv.ParseInt(s, 10, 64)`: `none` models a non-nil error. -/
def parseInt64 (s : String) : Option Int :=
  match s.toList with
  | [] => none
  | c :: rest =>
    let signed : Bool × List Char :=
      if c = '-' then (true, rest)
      else if c = '+' then (false, rest)
      else (false, c :: rest)
    match parseDigits signed.2 with
    | none => none
    | some n =>
      let v : Int := if signed.1 then -(n : Int) else (n : Int)
      if v < -(2 ^ 63) ∨ v > 2 ^ 63 - 1 then none else some v

/-! ## `parseBytes` (main.go)

The Go function reads `r.URL.Query().Get("bytes")`; `Get` yields `""`
when the parameter is absent, so the handler-relevant input is just that
string. -/

/-- `parseBytes`: validates the `bytes` query parameter. -/
def parseBytes (bytesParam : String) : Except String Int :=
  if bytesParam = "" then .error "missing 'bytes' parameter"
  else
    match parseInt64 bytesParam with
    | none => .error "invalid 'bytes' parameter"
    | some numBytes =>
      if numBytes < minBytes ∨ numBytes > maxBytes then
        .error "bytes must be between 1.00 MB and 10.00 GB"
      else
        .ok numBytes

/-! ## Server statistics (`ServerStats`) -/

/-- The `ServerStats` struct.  `startTime` and `lastRequestTime` are
abstract instants.  In the sequential handler model the mutex is the
identity; the interleaved model below handles the atomics. -/
structure ServerStats where
  totalDownloads : Int
  totalUploads : Int
  totalBytesDown : Int
  totalBytesUp : Int
  totalConnections : Int
  startTime : Nat
  lastRequestTime : Nat
  peakConcurrent : Int
  currentConcurrent : Int
deriving DecidableEq, Repr

/-- The process-start value `&ServerStats{startTime: time.Now()}` with the
start instant taken as 0. -/
def initialStats : ServerStats :=
  { totalDownloads := 0, totalUploads := 0, totalBytesDown := 0,
    totalBytesUp := 0, totalConnections := 0, startTime := 0,
    lastRequestTime := 0, peakConcurrent := 0, currentConcurrent := 0 }

/-- HTTP request method, as far as the two handlers inspect it. -/
inductive Method
  | GET
  | POST
  | other
deriving DecidableEq, Repr

/-! ## The download streaming loop

```go
buffer := make([]byte, downloadBufferSize)
remaining := numBytes
for remaining > 0 {
    writeSize := int64(len(buffer))
    if remaining < writeSize { writeSize = remaining; buffer = buffer[:writeSize] }
    w.Write(buffer)
    remaining -= writeSize
}
```

`streamLoop fuel bufLen remaining` returns the list of chunk sizes the
loop writes.  The truncated buffer length after an iteration is exactly
the `writeSize` just written, so the buffer length is threaded as
`bufLen`.  The loop runs at most `remaining` iterations because every
write is at least one byte (the buffer is never empty:
`downloadBufferSize = 2^20`), so `fuel := remaining` is enough and the
fuel-free wrapper `streamChunks` computes the exact chunk list. -/
def streamLoop : Nat → Nat → Nat → List Nat
  | 0, _, _ => []
  | fuel + 1, bufLen, remaining =>
    if remaining = 0 then []
    else
      let writeSize := if remaining < bufLen then remaining else bufLen
      writeSize :: streamLoop fuel writeSize (remaining - writeSize)

/-- Chunk sizes written by the download loop for `remaining` bytes. -/
def streamChunks (remaining : Nat) : List Nat :=
  streamLoop remaining downloadBufferSize remaining

/-! ## `downloadHandler` (sequential model)

One in-flight request: the increment, the peak compare-and-swap loop and
the deferred decrement collapse to `peak := max peak (cc+1)` and a net
unchanged `currentConcurrent`.  The oracle `failAt = some k` means the
`k`-th call to `w.Write` (0-based) fails; writes before it succeeded. -/

/-- Observable outcome of one `downloadHandler` call. -/
structure DownResult where
  status : Nat
  message : String
  contentType : Option String
  contentLength : Option String
  cacheControl : Option String
  chunks : List Nat
  completed : Bool
deriving DecidableEq, Repr

/-- `downloadHandler`. -/
def downloadHandler (method : Method) (bytesParam : String)
    (failAt : Option Nat) (now : Nat) (st : ServerStats) :
    DownResult × ServerStats :=
  if method ≠ Method.GET then
    ({ status := 405, message := "method not allowed", contentType := none,
       contentLength := none, cacheControl := none, chunks := [],
       completed := false }, st)
  else
    match parseBytes bytesParam with
    | .error e =>
      ({ status := 400, message := e, contentType := none,
         contentLength := none, cacheControl := none, chunks := [],
         completed := false }, st)
    | .ok numBytes =>
      -- atomic increment + peak CAS loop, run without interference
      let ccIn := st.currentConcurrent + 1
      let newPeak := if ccIn > st.peakConcurrent then ccIn else st.peakConcurrent
      let allChunks := streamChunks numBytes.toNat
      let failsMidStream : Bool :=
        match failAt with
        | some k => decide (k < allChunks.length)
        | none => false
      if failsMidStream then
        -- `w.Write` failed: log and return; the deferred decrement fires.
        ({ status := 200, message := "", contentType := some "application/octet-stream",
           contentLength := some (toString numBytes),
           cacheControl := some "no-cache, no-store, must-revalidate",
           chunks := allChunks.take (failAt.getD 0), completed := false },
         { st with peakConcurrent := newPeak })
      else
        ({ status := 200, message := "", contentType := some "application/octet-stream",
           contentLength := some (toString numBytes),
           cacheControl := some "no-cache, no-store, must-revalidate",
           chunks := allChunks, completed := true },
         { st with peakConcurrent := newPeak,
                   totalDownloads := st.totalDownloads + 1,
                   totalBytesDown := st.totalBytesDown + numBytes,
                   lastRequestTime := now })

/-! ## `uploadHandler` (sequential model)

The oracle `bodyRead` is the result of `io.Copy(io.Discard, r.Body)`:
`.ok m` means `m` body bytes were received and drained, `.error ()` a
read error. -/

/-- Observable outcome of one `uploadHandler` call.  `warned` records the
`expected ≠ received` warning log line. -/
structure UpResult where
  status : Nat
  body : String
  contentType : Option String
  warned : Bool
deriving DecidableEq, Repr

/-- `uploadHandler`. -/
def uploadHandler (method : Method) (bytesParam : String)
    (bodyRead : Except Unit Int) (now : Nat) (st : ServerStats) :
    UpResult × ServerStats :=
  if method ≠ Method.POST then
    ({ status := 405, body := "method not allowed", contentType := none,
       warned := false }, st)
  else
    match parseBytes bytesParam with
    | .error e =>
      ({ status := 400, body := e, contentType := none, warned := false }, st)
    | .ok expectedBytes =>
      let ccIn := st.currentConcurrent + 1
      let newPeak := if ccIn > st.peakConcurrent then ccIn else st.peakConcurrent
      match bodyRead with
      | .error _ =>
        ({ status := 500, body := "upload error", contentType := none,
           warned := false }, { st with peakConcurrent := newPeak })
      | .ok uploadedBytes =>
        ({ status := 200,
           body := "\x7b\"ok\":true,\"bytes\":" ++ toString uploadedBytes ++ "\x7d",
           contentType := some "application/json",
           warned := uploadedBytes ≠ expectedBytes },
         { st with peakConcurrent := newPeak,
                   totalUploads := st.totalUploads + 1,
                   totalBytesUp := st.totalBytesUp + uploadedBytes,
                   totalConnections := st.totalConnections + 1,
                   lastRequestTime := now })

/-! ## Client-side test runners

`time.Duration` is an `Int` of nanoseconds; `Duration.Seconds()` is exact
division by 10^9 over `ℚ`, and the two `float64` divisions of the speed
computation are modelled exactly over `ℚ`. -/

/-- `int64(config.Size) * 1_000_000`, the byte count both test runners
declare (decimal megabytes). -/
def clientNumBytes (size : Int) : Int := size * 1000000

/-- The `bytes` query-parameter string the client puts in the test URL. -/
def clientBytesParam (size : Int) : String := toString (clientNumBytes size)

/-- `elapsed.Seconds()` for an `elapsed` of `ns` nanoseconds. -/
def elapsedSeconds (ns : Int) : ℚ := (ns : ℚ) / 1000000000

/-- The speed computation shared by both runners:
`speedBytesPerSec := float64(bytes) / elapsed.Seconds()` then
`speedMbps := (speedBytesPerSec * 8) / 1_000_000`. -/
def speedMbps (byteCount : Int) (elapsedNs : Int) : ℚ :=
  ((byteCount : ℚ) / elapsedSeconds elapsedNs) * 8 / 1000000

/-- The spec's formula, written from its words: throughput is
"(bytesReceived / elapsedSeconds) × 8 / 1,000,000 megabits per second". -/
def specThroughputMbps (bytesReceived : Int) (elapsedNs : Int) : ℚ :=
  ((bytesReceived : ℚ) / ((elapsedNs : ℚ) / 1000000000)) * 8 / 1000000

/-- Network oracle for one `runDownloadTest` call, in source order:
`http.NewRequest` outcome, `httpClient.Do` outcome, `resp.StatusCode`,
the byte count and error result of `io.Copy(io.Discard, resp.Body)`, and
the `time.Since(startTime)` reading taken after the body is drained. -/
structure DownEnv where
  newRequestErr : Bool
  doErr : Bool
  statusCode : Nat
  bodyBytes : Int
  copyErr : Bool
  elapsedNs : Int
deriving DecidableEq, Repr

/-- `runDownloadTest`: returns `(speedMbps, elapsed)` or an error. -/
def runDownloadTest (env : DownEnv) : Except String (ℚ × Int) :=
  if env.newRequestErr then .error "request creation failed"
  else if env.doErr then .error "download failed"
  else if env.statusCode ≠ 200 then
    .error ("server returned status " ++ toString env.statusCode)
  else if env.copyErr then .error "read failed"
  else if env.elapsedNs = 0 then .error "test completed too quickly to measure"
  else .ok (speedMbps env.bodyBytes env.elapsedNs, env.elapsedNs)

/-- Network oracle for one `runUploadTest` call.  `reportedBytes` is the
`bytes` field of the server's JSON reply; the Go code drains that reply
into `io.Discard` and never parses it.  The round trip is split into the
request phase (`requestNs`, sending the body until response headers
arrive) and the response phase (`responseNs`, draining the reply);
`time.Since(startTime)` is read after both, so elapsed is their sum. -/
structure UpEnv where
  newRequestErr : Bool
  doErr : Bool
  statusCode : Nat
  reportedBytes : Int
  requestNs : Int
  responseNs : Int
deriving DecidableEq, Repr

/-- `runUploadTest`: declares `clientNumBytes size` bytes and computes the
speed from that declared count over the full round-trip time. -/
def runUploadTest (size : Int) (env : UpEnv) : Except String (ℚ × Int) :=
  let numBytes := clientNumBytes size
  if env.newRequestErr then .error "request creation failed"
  else if env.doErr then .error "upload failed"
  else if env.statusCode ≠ 200 then
    .error ("server returned status " ++ toString env.statusCode)
  else
    let elapsed := env.requestNs + env.responseNs
    if elapsed = 0 then .error "test completed too quickly to measure"
    else .ok (speedMbps numBytes elapsed, elapsed)

/-! ## Client orchestrator loops

The loops are modelled over per-iteration oracles
`Nat → Except String (ℚ × Int)` giving the result of the `i`-th
download / upload test.  The model returns the speed series actually
produced (the filled prefix of `downloadSpeeds` / `uploadSpeeds`), and
`some msg` for the `ERROR:` line printed when a test fails (at which
point the Go function `return`s). -/

/-- Loop body of `runBothTests`, iterating `i = start, start+1, ...` with
`n` iterations left.  A failed download aborts before the iteration's
upload runs; a failed upload keeps that iteration's download speed. -/
def runBothLoop (down upT : Nat → Except String (ℚ × Int)) :
    Nat → Nat → List ℚ × List ℚ × Option String
  | _, 0 => ([], [], none)
  | i, n + 1 =>
    match down i with
    | .error e => ([], [], some ("download test " ++ toString (i + 1) ++ ": " ++ e))
    | .ok (downSpeed, _) =>
      match upT i with
      | .error e =>
        ([downSpeed], [], some ("upload test " ++ toString (i + 1) ++ ": " ++ e))
      | .ok (upSpeed, _) =>
        match runBothLoop down upT (i + 1) n with
        | (ds, us, r) => (downSpeed :: ds, upSpeed :: us, r)

/-- `runBothTests` with `config.Count = count`. -/
def runBothTests (count : Nat) (down upT : Nat → Except String (ℚ × Int)) :
    List ℚ × List ℚ × Option String :=
  runBothLoop down upT 0 count

/-- Loop body shared (verbatim in the source, twice) by
`runDownloadTests` and `runUploadTests`. -/
def runSeriesLoop (test : Nat → Except String (ℚ × Int)) :
    Nat → Nat → List ℚ × Option String
  | _, 0 => ([], none)
  | i, n + 1 =>
    match test i with
    | .error e => ([], some ("test " ++ toString (i + 1) ++ ": " ++ e))
    | .ok (speed, _) =>
      match runSeriesLoop test (i + 1) n with
      | (ss, r) => (speed :: ss, r)

/-- `runDownloadTests`. -/
def runDownloadTests (count : Nat) (test : Nat → Except String (ℚ × Int)) :
    List ℚ × Option String :=
  runSeriesLoop test 0 count

/-- `runUploadTests`. -/
def runUploadTests (count : Nat) (test : Nat → Except String (ℚ × Int)) :
    List ℚ × Option String :=
  runSeriesLoop test 0 count

/-- `calculateAverage`. -/
def calculateAverage (speeds : List ℚ) : ℚ :=
  if speeds.length = 0 then 0
  else speeds.sum / (speeds.length : ℚ)

/-! ## Client configuration validation (`Config.validate`, client mode) -/

/-- `isValidDirection`. -/
def isValidDirection (d : String) : Bool :=
  d = "down" || d = "up" || d = "both"

/-- The `case modeClient` branch of `Config.validate`. -/
def validateClient (count size : Int) (direction server : String) :
    Except String Unit :=
  if count < 1 then .error "count must be at least 1"
  else if size < 1 then .error "size must be at least 1 MB"
  else if ¬ isValidDirection direction then .error "invalid direction"
  else if server = "" then .error "server address cannot be empty"
  else .ok ()

/-! ## Interleaved model of the concurrency-tracking block

Both handlers run, between validation and the handler body,

```go
atomic.AddInt64(&stats.currentConcurrent, 1)
defer atomic.AddInt64(&stats.currentConcurrent, -1)
current := atomic.LoadInt64(&stats.currentConcurrent)
peak := atomic.LoadInt64(&stats.peakConcurrent)
for current > peak && !atomic.CompareAndSwapInt64(&stats.peakConcurrent, peak, current) {
    peak = atomic.LoadInt64(&stats.peakConcurrent)
}
```

Each of `K` concurrent requests is a thread executing this block; each
atomic access is one indivisible step, and steps of different threads
interleave arbitrarily.  The loop condition `current > peak` reads only
thread-local values, so it is folded into the step that attempts the
compare-and-swap; the re-load of `peak` after a failed swap is the same
atomic load as the initial one, so both are the `loadPeak` step.
`ccMax` is a ghost field recording the largest value `currentConcurrent`
ever actually held. -/

/-- Program counter of one thread in the block: the next atomic action. -/
inductive PeakPC
  | inc
  | loadCur
  | loadPeak
  | casTry
  | dec
  | done
deriving DecidableEq, Repr

/-- One thread: program counter plus the locals `current` and `peak`. -/
structure PeakThread where
  pc : PeakPC
  cur : Int := 0
  lpeak : Int := 0
deriving DecidableEq, Repr

/-- Shared atomics (plus ghost `ccMax`) and all thread states. -/
structure PeakState where
  cc : Int
  peak : Int
  ccMax : Int
  threads : List PeakThread
deriving DecidableEq, Repr

/-- One atomic step of thread `t` against shared state: returns the new
shared state and the new thread state. -/
def threadStep (s : PeakState) (t : PeakThread) : PeakState × PeakThread :=
  match t.pc with
  | .inc =>
    let cc1 := s.cc + 1
    ({ s with cc := cc1, ccMax := max s.ccMax cc1 }, { t with pc := .loadCur })
  | .loadCur => (s, { t with pc := .loadPeak, cur := s.cc })
  | .loadPeak => (s, { t with pc := .casTry, lpeak := s.peak })
  | .casTry =>
    if t.cur > t.lpeak then
      if s.peak = t.lpeak then
        ({ s with peak := t.cur }, { t with pc := .dec })
      else (s, { t with pc := .loadPeak })
    else (s, { t with pc := .dec })
  | .dec => ({ s with cc := s.cc - 1 }, { t with pc := .done })
  | .done => (s, t)

/-- Scheduler step: thread `i` performs its next atomic action (no-op for
an out-of-range index or a finished thread). -/
def sysStep (s : PeakState) (i : Nat) : PeakState :=
  match s.threads[i]? with
  | none => s
  | some t =>
    let st := threadStep s t
    { st.1 with threads := s.threads.set i st.2 }

/-- Run a whole schedule (a list of thread indices). -/
def runSched (s : PeakState) : List Nat → PeakState
  | [] => s
  | i :: rest => runSched (sysStep s i) rest

/-- Initial state for `K` concurrent requests that all passed validation:
both atomics are 0 and every thread is about to increment. -/
def initPeakState (K : Nat) : PeakState :=
  { cc := 0, peak := 0, ccMax := 0,
    threads := List.replicate K { pc := PeakPC.inc } }

/-- A thread is "in the region" between its increment (inclusive of the
states right after it) and its deferred decrement. -/
def inRegion (p : PeakPC) : Bool :=
  match p with
  | .loadCur => true
  | .loadPeak => true
  | .casTry => true
  | .dec => true
  | _ => false

/-- Number of threads currently in the region. -/
def regionCount (ts : List PeakThread) : Nat :=
  ts.countP (fun t => inRegion t.pc)

/-- Largest `current` snapshot held by any thread (0 if none). -/
def maxCur (ts : List PeakThread) : Int :=
  ts.foldr (fun t m => max t.cur m) 0

/-- All threads have finished the block. -/
def allDone (s : PeakState) : Prop :=
  ∀ t ∈ s.threads, t.pc = PeakPC.done

instance (s : PeakState) : Decidable (allDone s) := by
  unfold allDone; infer_instance

/-! ## Lemmas about the download streaming loop -/

theorem streamLoop_zero (fuel b : Nat) : streamLoop fuel b 0 = [] := by
cases fuel <;> rfl

theorem streamLoop_sum : ∀ (fuel b r : Nat), 1 ≤ b → r ≤ fuel →
    (streamLoop fuel b r).sum = r := by
intro fuel
induction fuel with
| zero =>
  intro b r _ hr
  have : r = 0 := by omega
  subst this; rfl
| succ m ih =>
  intro b r hb hr
  by_cases h0 : r = 0
  · subst h0; rfl
  · have hws1 : 1 ≤ (if r < b then r else b) := by split <;> omega
    have hwsr : (if r < b then r else b) ≤ r := by split <;> omega
    simp only [streamLoop, h0, if_false, List.sum_cons]
    rw [ih _ _ hws1 (by omega)]
    omega

theorem streamLoop_mem : ∀ (fuel b r : Nat), 1 ≤ b →
    ∀ c ∈ streamLoop fuel b r, 1 ≤ c ∧ c ≤ b := by
intro fuel
induction fuel with
| zero => intro b r _ c hc; cases hc
| succ m ih =>
  intro b r hb c hc
  by_cases h0 : r = 0
  · subst h0; cases hc
  · have hws1 : 1 ≤ (if r < b then r else b) := by split <;> omega
    have hwsb : (if r < b then r else b) ≤ b := by split <;> omega
    simp only [streamLoop, h0, if_false, List.mem_cons] at hc
    rcases hc with rfl | hc
    · exact ⟨hws1, hwsb⟩
    · have := ih _ _ hws1 c hc
      omega

theorem streamLoop_dropLast : ∀ (fuel b r : Nat), 1 ≤ b → r ≤ fuel →
    ∀ c ∈ (streamLoop fuel b r).dropLast, c = b := by
intro fuel
induction fuel with
| zero =>
  intro b r _ hr
  have : r = 0 := by omega
  subst this; intro c hc; cases hc
| succ m ih =>
  intro b r hb hr c hc
  by_cases h0 : r = 0
  · subst h0; cases hc
  · by_cases hlt : r < b
    · -- last (and only) chunk: the loop writes r and stops
      simp only [streamLoop, h0, if_false, hlt, if_true] at hc
      rw [Nat.sub_self, streamLoop_zero] at hc
      cases hc
    · simp only [streamLoop, h0, if_false, hlt] at hc
      rcases hrb : streamLoop m b (r - b) with _ | ⟨y, ys⟩
      · rw [hrb] at hc; cases hc
      · rw [hrb, List.dropLast_cons_of_ne_nil (by simp)] at hc
        rcases List.mem_cons.mp hc with rfl | hc'
        · rfl
        · have := ih b (r - b) hb (by omega) c
          rw [hrb] at this
          exact this hc'

theorem streamChunks_sum (r : Nat) : (streamChunks r).sum = r :=
streamLoop_sum r downloadBufferSize r (by decide) le_rfl

theorem streamChunks_mem (r : Nat) :
    ∀ c ∈ streamChunks r, 1 ≤ c ∧ c ≤ downloadBufferSize :=
streamLoop_mem r downloadBufferSize r (by decide)

theorem streamChunks_dropLast (r : Nat) :
    ∀ c ∈ (streamChunks r).dropLast, c = downloadBufferSize :=
streamLoop_dropLast r downloadBufferSize r (by decide) le_rfl

/-! ## Lemmas about `parseBytes` -/

theorem parseBytes_ok_bounds {s : String} {n : Int}
    (h : parseBytes s = .ok n) : minBytes ≤ n ∧ n ≤ maxBytes := by
unfold parseBytes at h
by_cases hs : s = ""
· simp [hs] at h
· simp only [hs, if_false] at h
  cases hp : parseInt64 s with
  | none => rw [hp] at h; cases h
  | some m =>
    rw [hp] at h
    by_cases hb : m < minBytes ∨ m > maxBytes
    · simp only [hb, if_true] at h; cases h
    · simp only [hb, if_false, Except.ok.injEq] at h
      subst h
      omega

theorem parseBytes_ok_pos {s : String} {n : Int}
    (h : parseBytes s = .ok n) : 0 < n := by
have := parseBytes_ok_bounds h
have : (minBytes : Int) = 1048576 := by decide
omega

/-- Claim C1: for every valid `N` with `minBytes ≤ N ≤ maxBytes`, a GET
`/__down` request whose `bytes` parameter parses to `N` makes
`downloadHandler` answer 200, set `Content-Length` to exactly `N`, and
write exactly `N` body bytes in fixed 1 MiB chunks (every chunk but the
last is exactly `downloadBufferSize` bytes, every chunk is between 1 and
`downloadBufferSize` bytes) before returning. -/
theorem C1_download_exact_bytes (s : String) (n : Int) (now : Nat)
    (st : ServerStats) (h : parseBytes s = .ok n) :
    minBytes ≤ n ∧ n ≤ maxBytes ∧
    (downloadHandler .GET s none now st).1.status = 200 ∧
    (downloadHandler .GET s none now st).1.contentLength = some (toString n) ∧
    (((downloadHandler .GET s none now st).1.chunks.sum : Nat) : Int) = n ∧
    (∀ c ∈ (downloadHandler .GET s none now st).1.chunks.dropLast,
       c = downloadBufferSize) ∧
    (∀ c ∈ (downloadHandler .GET s none now st).1.chunks,
       1 ≤ c ∧ c ≤ downloadBufferSize) ∧
    (downloadHandler .GET s none now st).1.completed = true := by
obtain ⟨h1, h2⟩ := parseBytes_ok_bounds h
have hpos : 0 < n := parseBytes_ok_pos h
have hout : downloadHandler .GET s none now st =
    ({ status := 200, message := "", contentType := some "application/octet-stream",
       contentLength := some (toString n),
       cacheControl := some "no-cache, no-store, must-revalidate",
       chunks := streamChunks n.toNat, completed := true },
     { st with
         peakConcurrent :=
           (if st.currentConcurrent + 1 > st.peakConcurrent then
             st.currentConcurrent + 1 else st.peakConcurrent),
         totalDownloads := st.totalDownloads + 1,
         totalBytesDown := st.totalBytesDown + n,
         lastRequestTime := now }) := by
  simp [downloadHandler, h]
rw [hout]
refine ⟨h1, h2, rfl, rfl, ?_, streamChunks_dropLast _, streamChunks_mem _, rfl⟩
rw [streamChunks_sum]
omega

/-- Closed witness for C1 at `N = 1048576 = minBytes`. -/
theorem C1_download_exact_bytes_witness :
    parseBytes "1048576" = .ok 1048576 ∧
    (downloadHandler .GET "1048576" none 0 initialStats).1.status = 200 ∧
    (downloadHandler .GET "1048576" none 0 initialStats).1.contentLength =
      some "1048576" ∧
    (((downloadHandler .GET "1048576" none 0 initialStats).1.chunks.sum : Nat) : Int) =
      1048576 := by
have h : parseBytes "1048576" = .ok 1048576 := rfl
have hc := C1_download_exact_bytes "1048576" 1048576 0 initialStats h
exact ⟨h, hc.2.2.1, hc.2.2.2.1, hc.2.2.2.2.1⟩

/-- Claim C2: when the server receives `M` body bytes on an upload whose
`bytes` parameter declares `N` (both within bounds), `uploadHandler`
answers 200 with body `{"ok":true,"bytes":M}` and the statistics update
uses `M`, not `N`: `totalBytesUp += M`, `totalUploads += 1`,
`totalConnections += 1`, `lastRequestTime` refreshed; an `M ≠ N` mismatch
is logged (warned) but still answered 200. -/
theorem C2_upload_counts_actual_bytes (s : String) (n m : Int) (now : Nat)
    (st : ServerStats) (h : parseBytes s = .ok n)
    (_hm1 : minBytes ≤ m) (_hm2 : m ≤ maxBytes) :
    (uploadHandler .POST s (.ok m) now st).1.status = 200 ∧
    (uploadHandler .POST s (.ok m) now st).1.body =
      "\x7b\"ok\":true,\"bytes\":" ++ toString m ++ "\x7d" ∧
    (uploadHandler .POST s (.ok m) now st).2.totalBytesUp =
      st.totalBytesUp + m ∧
    (uploadHandler .POST s (.ok m) now st).2.totalUploads =
      st.totalUploads + 1 ∧
    (uploadHandler .POST s (.ok m) now st).2.totalConnections =
      st.totalConnections + 1 ∧
    (uploadHandler .POST s (.ok m) now st).2.lastRequestTime = now ∧
    (m ≠ n →
      (uploadHandler .POST s (.ok m) now st).1.warned = true ∧
      (uploadHandler .POST s (.ok m) now st).1.status = 200) := by
have hout : uploadHandler .POST s (.ok m) now st =
    ({ status := 200,
       body := "\x7b\"ok\":true,\"bytes\":" ++ toString m ++ "\x7d",
       contentType := some "application/json",
       warned := decide (m ≠ n) },
     { st with
         peakConcurrent :=
           (if st.currentConcurrent + 1 > st.peakConcurrent then
             st.currentConcurrent + 1 else st.peakConcurrent),
         totalUploads := st.totalUploads + 1,
         totalBytesUp := st.totalBytesUp + m,
         totalConnections := st.totalConnections + 1,
         lastRequestTime := now }) := by
  simp [uploadHandler, h]
rw [hout]
refine ⟨rfl, rfl, rfl, rfl, rfl, rfl, fun hmn => ⟨?_, rfl⟩⟩
simp [hmn]

/-- Closed witness for C2: `N = 1048576` declared, `M = 2097152`
received. -/
theorem C2_upload_counts_actual_bytes_witness :
    parseBytes "1048576" = .ok 1048576 ∧
    (uploadHandler .POST "1048576" (.ok 2097152) 7 initialStats).1.status = 200 ∧
    (uploadHandler .POST "1048576" (.ok 2097152) 7 initialStats).1.body =
      "\x7b\"ok\":true,\"bytes\":2097152\x7d" ∧
    (uploadHandler .POST "1048576" (.ok 2097152) 7 initialStats).2.totalBytesUp =
      2097152 ∧
    (uploadHandler .POST "1048576" (.ok 2097152) 7 initialStats).1.warned = true := by
have h : parseBytes "1048576" = .ok 1048576 := rfl
have hc := C2_upload_counts_actual_bytes "1048576" 1048576 2097152 7
  initialStats h (by decide) (by decide)
exact ⟨h, hc.1, hc.2.1, hc.2.2.1, (hc.2.2.2.2.2.2 (by decide)).1⟩

/-- Claim C3: a request to either endpoint whose `bytes` parameter is
missing, malformed, or out of range is answered 400 with the descriptive
`parseBytes` message before any body byte is streamed (no chunks) or read
(the upload result does not depend on the body), and no statistics field
changes. -/
theorem C3_invalid_bytes_rejected (s e : String) (failAt : Option Nat)
    (br br2 : Except Unit Int) (now : Nat) (st : ServerStats)
    (h : parseBytes s = .error e) :
    (downloadHandler .GET s failAt now st).1.status = 400 ∧
    (downloadHandler .GET s failAt now st).1.message = e ∧
    (downloadHandler .GET s failAt now st).1.chunks = [] ∧
    (downloadHandler .GET s failAt now st).2 = st ∧
    (uploadHandler .POST s br now st).1.status = 400 ∧
    (uploadHandler .POST s br now st).1.body = e ∧
    (uploadHandler .POST s br now st).2 = st ∧
    uploadHandler .POST s br now st = uploadHandler .POST s br2 now st := by
simp [downloadHandler, uploadHandler, h]

/-- Closed witness for C3 at the missing-parameter input. -/
theorem C3_invalid_bytes_rejected_witness :
    parseBytes "" = .error "missing 'bytes' parameter" ∧
    (downloadHandler .GET "" none 3 initialStats).1.status = 400 ∧
    (downloadHandler .GET "" none 3 initialStats).2 = initialStats ∧
    (uploadHandler .POST "" (.ok 5) 3 initialStats).2 = initialStats := by
have h : parseBytes "" = .error "missing 'bytes' parameter" := rfl
have hc := C3_invalid_bytes_rejected "" "missing 'bytes' parameter" none
  (.ok 5) (.error ()) 3 initialStats h
exact ⟨h, hc.1, hc.2.2.2.1, hc.2.2.2.2.2.2.1⟩

/-- Claim C4: download statistics are all-or-nothing.  If the `k`-th
chunk write fails, the handler returns immediately (only the first `k`
chunks were written) and `totalDownloads`, `totalBytesDown`,
`lastRequestTime` are unchanged; without a write failure the statistics
are updated exactly once, `totalDownloads += 1` and
`totalBytesDown += N`. -/
theorem C4_download_stats_all_or_nothing (s : String) (n : Int) (k : Nat)
    (now : Nat) (st : ServerStats) (h : parseBytes s = .ok n)
    (hk : k < (streamChunks n.toNat).length) :
    (downloadHandler .GET s (some k) now st).1.chunks =
      (streamChunks n.toNat).take k ∧
    (downloadHandler .GET s (some k) now st).1.completed = false ∧
    (downloadHandler .GET s (some k) now st).2.totalDownloads =
      st.totalDownloads ∧
    (downloadHandler .GET s (some k) now st).2.totalBytesDown =
      st.totalBytesDown ∧
    (downloadHandler .GET s (some k) now st).2.lastRequestTime =
      st.lastRequestTime ∧
    (downloadHandler .GET s none now st).2.totalDownloads =
      st.totalDownloads + 1 ∧
    (downloadHandler .GET s none now st).2.totalBytesDown =
      st.totalBytesDown + n ∧
    (downloadHandler .GET s none now st).2.lastRequestTime = now := by
simp [downloadHandler, h, hk]

/-- Closed witness for C4: `N = 1048577` (chunks `[1048576, 1]`), write 0
fails. -/
theorem C4_download_stats_all_or_nothing_witness :
    parseBytes "1048577" = .ok 1048577 ∧
    0 < (streamChunks (1048577 : Int).toNat).length ∧
    (downloadHandler .GET "1048577" (some 0) 9 initialStats).1.chunks = [] ∧
    (downloadHandler .GET "1048577" (some 0) 9 initialStats).2.totalDownloads = 0 ∧
    (downloadHandler .GET "1048577" none 9 initialStats).2.totalDownloads = 1 := by
have h : parseBytes "1048577" = .ok 1048577 := rfl
have hk : 0 < (streamChunks (1048577 : Int).toNat).length := by
  rw [show streamChunks (1048577 : Int).toNat = [1048576, 1] from rfl]
  decide
have hc := C4_download_stats_all_or_nothing "1048577" 1048577 0 9 initialStats h hk
refine ⟨h, hk, ?_, hc.2.2.1, hc.2.2.2.2.2.1⟩
rw [hc.1]
rfl

/-- Claim C10: `currentConcurrent` is balanced per request.  A request
failing validation (wrong method or bad `bytes` parameter) leaves the
whole statistics record — `currentConcurrent` included — untouched; a
request passing validation restores `currentConcurrent` to its prior
value on every exit path (success, mid-stream write failure, body-read
failure), and its increment is visible in the peak update
`peak := max peak (cc+1)` that runs between increment and decrement. -/
theorem C10_concurrency_counter_balanced (s : String) (failAt : Option Nat)
    (br : Except Unit Int) (now : Nat) (st : ServerStats) :
    (∀ mth, mth ≠ Method.GET →
       (downloadHandler mth s failAt now st).2 = st) ∧
    (∀ mth, mth ≠ Method.POST →
       (uploadHandler mth s br now st).2 = st) ∧
    (∀ e, parseBytes s = .error e →
       (downloadHandler .GET s failAt now st).2 = st ∧
       (uploadHandler .POST s br now st).2 = st) ∧
    (∀ n, parseBytes s = .ok n →
       (downloadHandler .GET s failAt now st).2.currentConcurrent =
         st.currentConcurrent ∧
       (downloadHandler .GET s failAt now st).2.peakConcurrent =
         max st.peakConcurrent (st.currentConcurrent + 1) ∧
       (uploadHandler .POST s br now st).2.currentConcurrent =
         st.currentConcurrent ∧
       (uploadHandler .POST s br now st).2.peakConcurrent =
         max st.peakConcurrent (st.currentConcurrent + 1)) := by
refine ⟨fun mth hm => ?_, fun mth hm => ?_, fun e he => ?_, fun n hn => ?_⟩
· simp [downloadHandler, hm]
· simp [uploadHandler, hm]
· constructor <;> simp [downloadHandler, uploadHandler, he]
· have hmax : (if st.currentConcurrent + 1 > st.peakConcurrent then
      st.currentConcurrent + 1 else st.peakConcurrent) =
      max st.peakConcurrent (st.currentConcurrent + 1) := by
    split <;> omega
  have hd : (downloadHandler .GET s failAt now st).2.currentConcurrent =
      st.currentConcurrent ∧
      (downloadHandler .GET s failAt now st).2.peakConcurrent =
        max st.peakConcurrent (st.currentConcurrent + 1) := by
    rcases failAt with _ | k
    · simp [downloadHandler, hn, hmax]
    · by_cases hk : k < (streamChunks n.toNat).length <;>
        simp [downloadHandler, hn, hmax, hk]
  have hu : (uploadHandler .POST s br now st).2.currentConcurrent =
      st.currentConcurrent ∧
      (uploadHandler .POST s br now st).2.peakConcurrent =
        max st.peakConcurrent (st.currentConcurrent + 1) := by
    cases br <;> simp [uploadHandler, hn, hmax]
  exact ⟨hd.1, hd.2, hu.1, hu.2⟩

/-- Closed witness for C10: validation failures leave the statistics
untouched; validated requests restore `currentConcurrent`. -/
theorem C10_concurrency_counter_balanced_witness :
    (downloadHandler .other "" none 0 initialStats).2 = initialStats ∧
    (downloadHandler .GET "" none 0 initialStats).2 = initialStats ∧
    (downloadHandler .GET "1048576" (some 0) 0 initialStats).2.currentConcurrent = 0 ∧
    (uploadHandler .POST "1048576" (.error ()) 0 initialStats).2.currentConcurrent = 0 := by
have h1 := C10_concurrency_counter_balanced "" none (.ok 0) 0 initialStats
have h2 := C10_concurrency_counter_balanced "1048576" (some 0) (.error ()) 0
  initialStats
refine ⟨h1.1 .other (by simp), (h1.2.2.1 "missing 'bytes' parameter" rfl).1,
  (h2.2.2.2 1048576 rfl).1, (h2.2.2.2 1048576 rfl).2.2.1⟩

/-- Claim C6: `size = 1` is the smallest client size `Config.validate`
accepts, and it makes the client request exactly 1,000,000 bytes — below
the server's `minBytes` of 1,048,576 — so the server rejects the request
with 400 (touching no statistics) and every such test iteration fails;
no accepted size below 2 MB can pass server validation. -/
theorem C6_size_one_always_rejected (count size : Int) (d sv : String)
    (now : Nat) (st : ServerStats)
    (hv : validateClient count size d sv = .ok ()) (hs : size < 2) :
    size = 1 ∧
    clientNumBytes size = 1000000 ∧
    clientNumBytes size < minBytes ∧
    parseBytes (clientBytesParam size) =
      .error "bytes must be between 1.00 MB and 10.00 GB" ∧
    (downloadHandler .GET (clientBytesParam size) none now st).1.status = 400 ∧
    (downloadHandler .GET (clientBytesParam size) none now st).2 = st ∧
    (∀ env : DownEnv, env.statusCode = 400 →
       ∃ msg, runDownloadTest env = .error msg) := by
have hsz1 : ¬ (size < 1) := by
  intro hlt
  by_cases hc : count < 1
  · simp [validateClient, hc] at hv
  · simp [validateClient, hc, hlt] at hv
have hone : size = 1 := by omega
subst hone
have hpb : parseBytes (clientBytesParam 1) =
    .error "bytes must be between 1.00 MB and 10.00 GB" := rfl
refine ⟨rfl, rfl, by decide, hpb, ?_, ?_, ?_⟩
· simp [downloadHandler, hpb]
· simp [downloadHandler, hpb]
· intro env h400
  rcases env with ⟨nr, de, sc, bb, ce, ns⟩
  cases nr
  · cases de
    · refine ⟨"server returned status " ++ toString sc, ?_⟩
      simp_all [runDownloadTest]
    · exact ⟨"download failed", rfl⟩
  · exact ⟨"request creation failed", rfl⟩

/-- Closed witness for C6 at the accepted configuration
`count = 1, size = 1, direction = "both"`. -/
theorem C6_size_one_always_rejected_witness :
    validateClient 1 1 "both" "127.0.0.1:8080" = .ok () ∧
    clientNumBytes 1 = 1000000 ∧
    (downloadHandler .GET (clientBytesParam 1) none 0 initialStats).1.status =
      400 := by
have hv : validateClient 1 1 "both" "127.0.0.1:8080" = .ok () := rfl
have hc := C6_size_one_always_rejected 1 1 "both" "127.0.0.1:8080" 0
  initialStats hv (by decide)
exact ⟨hv, hc.2.1, hc.2.2.2.2.1⟩

/-- Counterexample to C7 as stated: a body-read failure
(`io.Copy` error, `"read failed"`) makes `runDownloadTest` fail although
none of the four listed conditions holds — request construction
succeeded, the network call succeeded, the status is 200 and the elapsed
time is nonzero. -/
theorem C7_counterexample :
    runDownloadTest
      { newRequestErr := false, doErr := false, statusCode := 200,
        bodyBytes := 5, copyErr := true, elapsedNs := 7 } =
      .error "read failed" ∧
    ¬ (false = true ∨ false = true ∨ (200 : Nat) ≠ 200 ∨ (7 : Int) = 0) := by
exact ⟨rfl, by decide⟩

/-- Claim C7 amended: `runDownloadTest` fails exactly when request
construction fails, the network call fails, the server returns non-200,
the response-body read fails, or the measured elapsed time equals zero
(the zero case reported as an error, never as an infinite rate);
otherwise it returns throughput `(bytesReceived / elapsedSeconds) × 8 /
1,000,000` Mbps together with the elapsed duration. -/
theorem C7_download_test_result (env : DownEnv) :
    ((∃ msg, runDownloadTest env = .error msg) ↔
      (env.newRequestErr = true ∨ env.doErr = true ∨ env.statusCode ≠ 200 ∨
       env.copyErr = true ∨ env.elapsedNs = 0)) ∧
    (env.newRequestErr = false → env.doErr = false → env.statusCode = 200 →
     env.copyErr = false → env.elapsedNs ≠ 0 →
     runDownloadTest env =
       .ok (specThroughputMbps env.bodyBytes env.elapsedNs, env.elapsedNs)) := by
rcases env with ⟨nr, de, sc, bb, ce, ns⟩
cases nr <;> cases de <;> cases ce <;>
  by_cases hsc : sc = 200 <;>
  by_cases hns : ns = 0 <;>
  simp_all [runDownloadTest, specThroughputMbps, speedMbps, elapsedSeconds]

/-- Closed witness for C7 amended on a successful 8-byte, 1-second
test. -/
theorem C7_download_test_result_witness :
    runDownloadTest
      { newRequestErr := false, doErr := false, statusCode := 200,
        bodyBytes := 8, copyErr := false, elapsedNs := 1000000000 } =
      .ok (specThroughputMbps 8 1000000000, 1000000000) :=
(C7_download_test_result
  { newRequestErr := false, doErr := false, statusCode := 200,
    bodyBytes := 8, copyErr := false, elapsedNs := 1000000000 }).2
  rfl rfl rfl rfl (by decide)

/-- Claim C8: `runUploadTest` computes throughput from the declared byte
count `config.Size × 1,000,000` over the elapsed time, never from the
byte count the server's JSON reply reports (the result is independent of
`reportedBytes`), and the elapsed time spans the full round trip — the
request phase plus the response phase. -/
theorem C8_upload_test_uses_declared_bytes (size : Int) (env : UpEnv)
    (r1 r2 : Int) :
    runUploadTest size { env with reportedBytes := r1 } =
      runUploadTest size { env with reportedBytes := r2 } ∧
    (env.newRequestErr = false → env.doErr = false → env.statusCode = 200 →
     env.requestNs + env.responseNs ≠ 0 →
     runUploadTest size env =
       .ok (specThroughputMbps (clientNumBytes size)
              (env.requestNs + env.responseNs),
            env.requestNs + env.responseNs)) := by
refine ⟨rfl, fun h1 h2 h3 h4 => ?_⟩
rcases env with ⟨nr, de, sc, rb, rq, rs⟩
simp only at h1 h2 h3 h4
subst h1 h2 h3
simp [runUploadTest, h4, specThroughputMbps, speedMbps, elapsedSeconds]

/-- Closed witness for C8: `size = 100`, one-second round trip, server
reports a wildly different byte count. -/
theorem C8_upload_test_uses_declared_bytes_witness :
    runUploadTest 100
      { newRequestErr := false, doErr := false, statusCode := 200,
        reportedBytes := 31, requestNs := 600000000,
        responseNs := 400000000 } =
      .ok (specThroughputMbps (clientNumBytes 100) 1000000000,
           1000000000) :=
(C8_upload_test_uses_declared_bytes 100
  { newRequestErr := false, doErr := false, statusCode := 200,
    reportedBytes := 31, requestNs := 600000000,
    responseNs := 400000000 } 31 31).2 rfl rfl rfl (by decide)

/-! ## Orchestrator abort behaviour -/

/-- Speed of a successful test result (0 for an error; only applied to
successful results below). -/
def okSpeed (r : Except String (ℚ × Int)) : ℚ :=
  match r with
  | .ok p => p.1
  | .error _ => 0

theorem runBothLoop_down_abort
    (down upT : Nat → Except String (ℚ × Int)) (e : String) :
    ∀ (k i n : Nat), k < n →
    (∀ j, j < k → (∃ p, down (i + j) = .ok p) ∧ (∃ p, upT (i + j) = .ok p)) →
    down (i + k) = .error e →
    runBothLoop down upT i n =
      ((List.range k).map (fun j => okSpeed (down (i + j))),
       (List.range k).map (fun j => okSpeed (upT (i + j))),
       some ("download test " ++ toString (i + k + 1) ++ ": " ++ e)) := by
intro k
induction k with
| zero =>
  intro i n hn _ he
  obtain ⟨m, rfl⟩ : ∃ m, n = m + 1 := ⟨n - 1, by omega⟩
  rw [Nat.add_zero] at he
  simp [runBothLoop, he]
| succ k ih =>
  intro i n hn hok he
  obtain ⟨m, rfl⟩ : ∃ m, n = m + 1 := ⟨n - 1, by omega⟩
  obtain ⟨⟨⟨dv, dd⟩, hd⟩, ⟨⟨uv, ud⟩, hu⟩⟩ := hok 0 (Nat.succ_pos k)
  rw [Nat.add_zero] at hd hu
  have hrec := ih (i + 1) m (by omega)
    (fun j hj => by
      have := hok (j + 1) (by omega)
      rwa [show i + (j + 1) = i + 1 + j by omega] at this)
    (by rwa [show i + 1 + k = i + (k + 1) by omega])
  simp only [runBothLoop, hd, hu, hrec, Prod.mk.injEq]
  refine ⟨?_, ?_, by rw [show i + 1 + k = i + (k + 1) by omega]⟩ <;>
      rw [List.range_succ_eq_map, List.map_cons] <;>
      refine congrArg₂ List.cons ?_ ?_
  · rw [Nat.add_zero, hd]
    rfl
  · rw [List.map_map]
    refine List.map_congr_left fun j _ => ?_
    simp only [Function.comp_apply]
    rw [show i + 1 + j = i + (j + 1) by omega]
  · rw [Nat.add_zero, hu]
    rfl
  · rw [List.map_map]
    refine List.map_congr_left fun j _ => ?_
    simp only [Function.comp_apply]
    rw [show i + 1 + j = i + (j + 1) by omega]

theorem runSeriesLoop_abort
    (test : Nat → Except String (ℚ × Int)) (e : String) :
    ∀ (k i n : Nat), k < n →
    (∀ j, j < k → ∃ p, test (i + j) = .ok p) →
    test (i + k) = .error e →
    runSeriesLoop test i n =
      ((List.range k).map (fun j => okSpeed (test (i + j))),
       some ("test " ++ toString (i + k + 1) ++ ": " ++ e)) := by
intro k
induction k with
| zero =>
  intro i n hn _ he
  obtain ⟨m, rfl⟩ : ∃ m, n = m + 1 := ⟨n - 1, by omega⟩
  rw [Nat.add_zero] at he
  simp [runSeriesLoop, he]
| succ k ih =>
  intro i n hn hok he
  obtain ⟨m, rfl⟩ : ∃ m, n = m + 1 := ⟨n - 1, by omega⟩
  obtain ⟨⟨tv, td⟩, ht⟩ := hok 0 (Nat.succ_pos k)
  rw [Nat.add_zero] at ht
  have hrec := ih (i + 1) m (by omega)
    (fun j hj => by
      have := hok (j + 1) (by omega)
      rwa [show i + (j + 1) = i + 1 + j by omega] at this)
    (by rwa [show i + 1 + k = i + (k + 1) by omega])
  simp only [runSeriesLoop, ht, hrec, Prod.mk.injEq]
  refine ⟨?_, by rw [show i + 1 + k = i + (k + 1) by omega]⟩
  rw [List.range_succ_eq_map, List.map_cons]
  refine congrArg₂ List.cons ?_ ?_
  · rw [Nat.add_zero, ht]
    rfl
  · rw [List.map_map]
    refine List.map_congr_left fun j _ => ?_
    simp only [Function.comp_apply]
    rw [show i + 1 + j = i + (j + 1) by omega]

/-- Counterexample to C5 as stated: `count = 1`, the download test fails,
the upload oracle always succeeds — yet `runBothTests` produces no
upload result at all.  In direction `both` a failed download does
prevent the upload series. -/
theorem C5_counterexample :
    (runBothTests 1 (fun _ => .error "connection refused")
       (fun _ => .ok (20, 5))).2.1 = [] ∧
    (runBothTests 1 (fun _ => .error "connection refused")
       (fun _ => .ok (20, 5))).2.2 =
      some "download test 1: connection refused" := by
exact ⟨rfl, rfl⟩

/-- Claim C5 amended: when a test iteration fails, the orchestrator
aborts the remainder of the whole run, not just the failed direction's
series: in direction `both` a download failure at iteration `k` skips
that iteration's upload and all later iterations of both directions,
while results already produced for iterations before `k` (of both
directions) are kept and an error is surfaced; in a single-direction run
a failure at iteration `k` keeps exactly the earlier results. -/
theorem C5_abort_keeps_earlier_results (count k : Nat)
    (down upT : Nat → Except String (ℚ × Int)) (e : String)
    (hk : k < count)
    (hok : ∀ j, j < k → (∃ p, down j = .ok p) ∧ (∃ p, upT j = .ok p))
    (he : down k = .error e) :
    runBothTests count down upT =
      ((List.range k).map (fun j => okSpeed (down j)),
       (List.range k).map (fun j => okSpeed (upT j)),
       some ("download test " ++ toString (k + 1) ++ ": " ++ e)) ∧
    runDownloadTests count down =
      ((List.range k).map (fun j => okSpeed (down j)),
       some ("test " ++ toString (k + 1) ++ ": " ++ e)) := by
constructor
· have := runBothLoop_down_abort down upT e k 0 count hk
    (fun j hj => by simpa using hok j hj) (by simpa using he)
  simpa [runBothTests] using this
· have := runSeriesLoop_abort down e k 0 count hk
    (fun j hj => by simpa using (hok j hj).1) (by simpa using he)
  simpa [runDownloadTests] using this

/-- Closed witness for C5 amended: `count = 2`, download fails at the
second iteration; the first iteration's download and upload results are
kept, the second upload is skipped. -/
theorem C5_abort_keeps_earlier_results_witness :
    runBothTests 2 (fun j => if j < 1 then .ok (10, 5) else .error "boom")
      (fun _ => .ok (20, 5)) =
      ([10], [20], some "download test 2: boom") := by
have hc := C5_abort_keeps_earlier_results 2 1
  (fun j => if j < 1 then .ok (10, 5) else .error "boom")
  (fun _ => .ok (20, 5)) "boom" (by omega)
  (fun j hj => by
    interval_cases j
    exact ⟨⟨(10, 5), rfl⟩, ⟨(20, 5), rfl⟩⟩)
  rfl
rw [hc.1]
rfl

/-! ## Invariants of the interleaved concurrency-tracking model -/

theorem countP_set_balance {α} (p : α → Bool) :
    ∀ (ts : List α) (i : Nat) (t t' : α), ts[i]? = some t →
    (ts.set i t').countP p + (if p t then 1 else 0) =
      ts.countP p + (if p t' then 1 else 0) := by
intro ts
induction ts with
| nil => intro i t t' h; simp at h
| cons a l ih =>
  intro i t t' h
  cases i with
  | zero =>
    simp only [List.getElem?_cons_zero, Option.some.injEq] at h
    subst h
    simp only [List.set_cons_zero, List.countP_cons]
    omega
  | succ j =>
    simp only [List.getElem?_cons_succ] at h
    simp only [List.set_cons_succ, List.countP_cons]
    have := ih j t t' h
    omega

theorem getElem?_set_cases {α} {ts : List α} {i j : Nat} {t' u : α}
    (h : (ts.set i t')[j]? = some u) : u = t' ∨ ts[j]? = some u := by
by_cases hij : i = j
· subst hij
  rcases Nat.lt_or_ge i ts.length with hlt | hge
  · rw [List.getElem?_set_eq_of_lt t' hlt] at h
    exact Or.inl (Option.some.injEq .. ▸ h).symm
  · rw [List.set_eq_of_length_le hge] at h
    exact Or.inr h
· exact Or.inr (by rwa [List.getElem?_set_ne hij] at h)

/-- Thread-local invariant, relative to the shared state. -/
def ThreadInv (s : PeakState) (t : PeakThread) : Prop :=
  (t.pc = PeakPC.casTry → t.lpeak ≤ s.peak) ∧
  ((t.pc = PeakPC.dec ∨ t.pc = PeakPC.done) → t.cur ≤ s.peak) ∧
  (t.pc ≠ PeakPC.inc → t.pc ≠ PeakPC.loadCur → 1 ≤ t.cur ∧ t.cur ≤ s.ccMax)

/-- Global invariant of the interleaved model. -/
structure PeakInv (s : PeakState) : Prop where
  ccEq : s.cc = (regionCount s.threads : Int)
  ccMaxGE : s.cc ≤ s.ccMax
  ccMaxLen : s.ccMax ≤ (s.threads.length : Int)
  peakNN : 0 ≤ s.peak
  peakLE : s.peak ≤ s.ccMax
  thread : ∀ (i : Nat) (t : PeakThread), s.threads[i]? = some t → ThreadInv s t
  peakChar : s.peak = 0 ∨ ∃ (i : Nat) (t : PeakThread), s.threads[i]? = some t ∧
      (t.pc = PeakPC.dec ∨ t.pc = PeakPC.done) ∧ t.cur = s.peak

theorem inv_init (K : Nat) : PeakInv (initPeakState K) := by
have hrep : ∀ (i : Nat) (t : PeakThread),
    (List.replicate K { pc := PeakPC.inc : PeakThread })[i]? =
    some t → t = { pc := PeakPC.inc : PeakThread } := by
  intro i t h
  exact List.eq_of_mem_replicate (List.getElem?_mem h)
refine ⟨?_, by simp [initPeakState], ?_, le_refl 0, le_refl 0, ?_, Or.inl rfl⟩
· have : regionCount (List.replicate K { pc := PeakPC.inc : PeakThread }) = 0 := by
    rw [regionCount, List.countP_eq_zero]
    intro a ha
    rw [List.eq_of_mem_replicate ha]
    simp [inRegion]
  simp [initPeakState, this]
· simp [initPeakState]
· intro i t h
  rw [hrep i t h]
  simp [ThreadInv]

theorem threadInv_mono (s s' : PeakState) (u : PeakThread)
    (hpeak : s.peak ≤ s'.peak) (hmax : s.ccMax ≤ s'.ccMax)
    (h : ThreadInv s u) : ThreadInv s' u := by
obtain ⟨h1, h2, h3⟩ := h
exact ⟨fun hc => le_trans (h1 hc) hpeak, fun hc => le_trans (h2 hc) hpeak,
  fun ha hb => ⟨(h3 ha hb).1, le_trans (h3 ha hb).2 hmax⟩⟩

theorem peakChar_transfer {ts : List PeakThread} {i : Nat}
    {t t' : PeakThread} {pk : Int}
    (hget : ts[i]? = some t)
    (hnot : ¬(t.pc = PeakPC.dec ∨ t.pc = PeakPC.done))
    (h : ∃ (j : Nat) (u : PeakThread), ts[j]? = some u ∧
      (u.pc = PeakPC.dec ∨ u.pc = PeakPC.done) ∧ u.cur = pk) :
    ∃ (j : Nat) (u : PeakThread), (ts.set i t')[j]? = some u ∧
      (u.pc = PeakPC.dec ∨ u.pc = PeakPC.done) ∧ u.cur = pk := by
obtain ⟨j, u, hj, hdu, hcu⟩ := h
by_cases hij : i = j
· subst hij
  rw [hget] at hj
  injection hj with hj
  subst hj
  exact absurd hdu hnot
· exact ⟨j, u, by rw [List.getElem?_set_ne hij]; exact hj, hdu, hcu⟩

theorem regionCount_set (t' : PeakThread) {ts : List PeakThread} {i : Nat}
    {t : PeakThread} (hget : ts[i]? = some t) :
    (regionCount (ts.set i t') : Int) =
      (regionCount ts : Int) + (if inRegion t'.pc then 1 else 0) -
        (if inRegion t.pc then 1 else 0) := by
have hb := countP_set_balance (fun u => inRegion u.pc) ts i t t' hget
unfold regionCount
rcases h1 : inRegion t.pc <;> rcases h2 : inRegion t'.pc <;>
  simp [h1, h2] at hb ⊢ <;> omega

theorem regionCount_pos {ts : List PeakThread} {i : Nat} {t : PeakThread}
    (hget : ts[i]? = some t) (ht : inRegion t.pc = true) :
    1 ≤ regionCount ts :=
  List.countP_pos_iff.mpr ⟨t, List.getElem?_mem hget, ht⟩

theorem regionCount_le (ts : List PeakThread) :
    regionCount ts ≤ ts.length :=
  List.countP_le_length _

theorem sysStep_inv {s : PeakState} (hs : PeakInv s) (i : Nat) :
    PeakInv (sysStep s i) := by
rcases hget : s.threads[i]? with _ | t
· simpa [sysStep, hget] using hs
· have hlen : i < s.threads.length := (List.getElem?_eq_some.mp hget).1
  obtain ⟨ccEq, ccMaxGE, ccMaxLen, peakNN, peakLE, thread, peakChar⟩ := hs
  have hti := thread i t hget
  simp only [sysStep, hget]
  cases hpc : t.pc with
  | inc =>
    have hrc := regionCount_set { t with pc := PeakPC.loadCur } hget
    rw [hpc] at hrc
    simp [inRegion] at hrc
    have hcle := regionCount_le (s.threads.set i { t with pc := PeakPC.loadCur })
    rw [List.length_set] at hcle
    have hm1 : s.ccMax ≤ max s.ccMax (s.cc + 1) := le_max_left _ _
    have hm2 : s.cc + 1 ≤ max s.ccMax (s.cc + 1) := le_max_right _ _
    have hm3 : max s.ccMax (s.cc + 1) ≤ (s.threads.length : Int) :=
      max_le ccMaxLen (by omega)
    simp only [threadStep, hpc]
    refine ⟨by simp only []; omega, hm2, ?_, peakNN, le_trans peakLE hm1, ?_, ?_⟩
    · simp only [List.length_set]
      exact hm3
    · intro j u hu
      rcases getElem?_set_cases hu with rfl | hold
      · exact ⟨fun hc => by simp at hc, fun hc => by simp at hc,
          fun ha hb => by simp at hb⟩
      · exact threadInv_mono s _ u le_rfl hm1 (thread j u hold)
    · rcases peakChar with h0 | hw
      · exact Or.inl h0
      · exact Or.inr (peakChar_transfer hget (by rw [hpc]; simp) hw)
  | loadCur =>
    have hrc := regionCount_set { t with pc := PeakPC.loadPeak, cur := s.cc } hget
    rw [hpc] at hrc
    simp [inRegion] at hrc
    have hpos : 1 ≤ regionCount s.threads :=
      regionCount_pos hget (by rw [hpc]; rfl)
    simp only [threadStep, hpc]
    refine ⟨by simp only []; omega, ccMaxGE, ?_, peakNN, peakLE, ?_, ?_⟩
    · simp only [List.length_set]
      omega
    · intro j u hu
      rcases getElem?_set_cases hu with rfl | hold
      · exact ⟨fun hc => by simp at hc, fun hc => by simp at hc,
          fun _ _ => ⟨by simp only []; omega, by simp only []; omega⟩⟩
      · exact thread j u hold
    · rcases peakChar with h0 | hw
      · exact Or.inl h0
      · exact Or.inr (peakChar_transfer hget (by rw [hpc]; simp) hw)
  | loadPeak =>
    have hrc := regionCount_set { t with pc := PeakPC.casTry, lpeak := s.peak } hget
    rw [hpc] at hrc
    simp [inRegion] at hrc
    obtain ⟨_, _, ht3⟩ := hti
    have hcur := ht3 (by rw [hpc]; simp) (by rw [hpc]; simp)
    simp only [threadStep, hpc]
    refine ⟨by simp only []; omega, ccMaxGE, ?_, peakNN, peakLE, ?_, ?_⟩
    · simp only [List.length_set]
      omega
    · intro j u hu
      rcases getElem?_set_cases hu with rfl | hold
      · exact ⟨fun _ => le_rfl, fun hc => by simp at hc,
          fun _ _ => ⟨hcur.1, hcur.2⟩⟩
      · exact thread j u hold
    · rcases peakChar with h0 | hw
      · exact Or.inl h0
      · exact Or.inr (peakChar_transfer hget (by rw [hpc]; simp) hw)
  | casTry =>
    obtain ⟨ht1, _, ht3⟩ := hti
    have hlp := ht1 hpc
    have hcur := ht3 (by rw [hpc]; simp) (by rw [hpc]; simp)
    simp only [threadStep, hpc]
    by_cases hgt : t.cur > t.lpeak
    · by_cases hcas : s.peak = t.lpeak
      · -- successful compare-and-swap: peak := t.cur
        have hrc := regionCount_set { t with pc := PeakPC.dec } hget
        rw [hpc] at hrc
        simp [inRegion] at hrc
        simp only [if_pos hgt, if_pos hcas]
        refine ⟨by simp only []; omega, ccMaxGE, ?_, by simp only []; omega, by simp only []; omega, ?_, ?_⟩
        · simp only [List.length_set]
          omega
        · intro j u hu
          rcases getElem?_set_cases hu with rfl | hold
          · exact ⟨fun hc => by simp at hc, fun _ => le_rfl,
              fun _ _ => ⟨hcur.1, hcur.2⟩⟩
          · exact threadInv_mono s _ u (by simp only []; omega) le_rfl
              (thread j u hold)
        · refine Or.inr ⟨i, { t with pc := PeakPC.dec }, ?_, Or.inl rfl, rfl⟩
          exact List.getElem?_set_eq_of_lt _ hlen
      · -- failed compare-and-swap: re-load peak
        have hrc := regionCount_set { t with pc := PeakPC.loadPeak } hget
        rw [hpc] at hrc
        simp [inRegion] at hrc
        simp only [if_pos hgt, if_neg hcas]
        refine ⟨by simp only []; omega, ccMaxGE, ?_, peakNN, peakLE, ?_, ?_⟩
        · simp only [List.length_set]
          omega
        · intro j u hu
          rcases getElem?_set_cases hu with rfl | hold
          · exact ⟨fun hc => by simp at hc, fun hc => by simp at hc,
              fun _ _ => ⟨hcur.1, hcur.2⟩⟩
          · exact thread j u hold
        · rcases peakChar with h0 | hw
          · exact Or.inl h0
          · exact Or.inr (peakChar_transfer hget (by rw [hpc]; simp) hw)
    · -- loop condition false: exit to the deferred decrement
      have hrc := regionCount_set { t with pc := PeakPC.dec } hget
      rw [hpc] at hrc
      simp [inRegion] at hrc
      simp only [if_neg hgt]
      refine ⟨by simp only []; omega, ccMaxGE, ?_, peakNN, peakLE, ?_, ?_⟩
      · simp only [List.length_set]
        omega
      · intro j u hu
        rcases getElem?_set_cases hu with rfl | hold
        · exact ⟨fun hc => by simp at hc, fun _ => by simp only []; omega,
            fun _ _ => ⟨hcur.1, hcur.2⟩⟩
        · exact thread j u hold
      · rcases peakChar with h0 | hw
        · exact Or.inl h0
        · exact Or.inr (peakChar_transfer hget (by rw [hpc]; simp) hw)
  | dec =>
    obtain ⟨_, ht2, ht3⟩ := hti
    have hcle := ht2 (Or.inl hpc)
    have hcur := ht3 (by rw [hpc]; simp) (by rw [hpc]; simp)
    have hrc := regionCount_set { t with pc := PeakPC.done } hget
    rw [hpc] at hrc
    simp [inRegion] at hrc
    have hpos : 1 ≤ regionCount s.threads :=
      regionCount_pos hget (by rw [hpc]; rfl)
    simp only [threadStep, hpc]
    refine ⟨by simp only []; omega, by simp only []; omega, ?_, peakNN, peakLE, ?_, ?_⟩
    · simp only [List.length_set]
      omega
    · intro j u hu
      rcases getElem?_set_cases hu with rfl | hold
      · exact ⟨fun hc => by simp at hc, fun _ => hcle,
          fun _ _ => ⟨hcur.1, hcur.2⟩⟩
      · exact thread j u hold
    · rcases peakChar with h0 | hw
      · exact Or.inl h0
      · obtain ⟨j, u, hj, hdu, hcu⟩ := hw
        by_cases hij : i = j
        · subst hij
          refine Or.inr ⟨i, { t with pc := PeakPC.done }, ?_, Or.inr rfl, ?_⟩
          · exact List.getElem?_set_eq_of_lt _ hlen
          · rw [hget] at hj
            injection hj with hj
            subst hj
            exact hcu
        · exact Or.inr ⟨j, u, by rw [List.getElem?_set_ne hij]; exact hj,
            hdu, hcu⟩
  | done =>
    have hrc := regionCount_set t hget
    rw [hpc] at hrc
    simp [inRegion] at hrc
    simp only [threadStep, hpc]
    refine ⟨?_, ccMaxGE, ?_, peakNN, peakLE, ?_, ?_⟩
    · simp only []
      omega
    · simp only [List.length_set]
      omega
    · intro j u hu
      rcases getElem?_set_cases hu with rfl | hold
      · exact thread i u hget
      · exact thread j u hold
    · rcases peakChar with h0 | hw
      · exact Or.inl h0
      · obtain ⟨j, u, hj, hdu, hcu⟩ := hw
        by_cases hij : i = j
        · subst hij
          refine Or.inr ⟨i, t, List.getElem?_set_eq_of_lt _ hlen, ?_, ?_⟩
          · rw [hget] at hj
            injection hj with hj
            subst hj
            exact hdu
          · rw [hget] at hj
            injection hj with hj
            subst hj
            exact hcu
        · exact Or.inr ⟨j, u, by rw [List.getElem?_set_ne hij]; exact hj,
            hdu, hcu⟩

theorem runSched_inv {s : PeakState} (hs : PeakInv s) (sched : List Nat) :
    PeakInv (runSched s sched) := by
induction sched generalizing s with
| nil => exact hs
| cons i rest ih => exact ih (sysStep_inv hs i)

theorem sysStep_length (s : PeakState) (i : Nat) :
    (sysStep s i).threads.length = s.threads.length := by
rcases hget : s.threads[i]? with _ | t
· simp [sysStep, hget]
· simp only [sysStep, hget]
  cases hpc : t.pc <;> simp [threadStep, hpc, List.length_set]

theorem runSched_length (s : PeakState) (sched : List Nat) :
    (runSched s sched).threads.length = s.threads.length := by
induction sched generalizing s with
| nil => rfl
| cons i rest ih => rw [runSched, ih, sysStep_length]

theorem sysStep_peak_mono (s : PeakState) (i : Nat) :
    s.peak ≤ (sysStep s i).peak := by
rcases hget : s.threads[i]? with _ | t
· simp [sysStep, hget]
· simp only [sysStep, hget]
  cases hpc : t.pc
  case casTry =>
    simp only [threadStep, hpc]
    by_cases hgt : t.cur > t.lpeak
    · by_cases hcas : s.peak = t.lpeak
      · simp only [if_pos hgt, if_pos hcas]
        omega
      · simp [if_pos hgt, if_neg hcas]
    · simp [if_neg hgt]
  all_goals simp [threadStep, hpc]

theorem le_maxCur : ∀ (ts : List PeakThread) (t : PeakThread), t ∈ ts →
    t.cur ≤ maxCur ts := by
intro ts
induction ts with
| nil => intro t h; cases h
| cons a l ih =>
  intro t h
  rcases List.mem_cons.mp h with rfl | h
  · exact le_max_left _ _
  · exact le_trans (ih t h) (le_max_right _ _)

theorem maxCur_le (m : Int) : ∀ (ts : List PeakThread), 0 ≤ m →
    (∀ t ∈ ts, t.cur ≤ m) → maxCur ts ≤ m := by
intro ts
induction ts with
| nil => intro h0 _; simpa [maxCur] using h0
| cons a l ih =>
  intro h0 h
  have h1 := h a (List.mem_cons_self a l)
  have h2 := ih h0 (fun t ht => h t (List.mem_cons_of_mem a ht))
  exact max_le h1 h2

theorem allDone_regionCount {s : PeakState} (h : allDone s) :
    regionCount s.threads = 0 := by
rw [regionCount, List.countP_eq_zero]
intro a ha
rw [h a ha]
simp [inRegion]

/-- Counterexample to C9 as stated: two concurrent requests where thread
0 loads `currentConcurrent` before thread 1 increments it, and thread 1
loads it only after thread 0's deferred decrement.  Both requests
complete, the concurrency actually reached 2 (ghost `ccMax`), yet the
final `peakConcurrent` is 1: the compare-and-swap loop never loses an
*observed* value, but the increment and the subsequent load are separate
atomics, so the true maximum can go unobserved. -/
theorem C9_counterexample :
    allDone (runSched (initPeakState 2) [0, 0, 1, 0, 0, 0, 1, 1, 1, 1]) ∧
    (runSched (initPeakState 2) [0, 0, 1, 0, 0, 0, 1, 1, 1, 1]).ccMax = 2 ∧
    (runSched (initPeakState 2) [0, 0, 1, 0, 0, 0, 1, 1, 1, 1]).peak = 1 ∧
    (runSched (initPeakState 2) [0, 0, 1, 0, 0, 0, 1, 1, 1, 1]).peak ≠
      (runSched (initPeakState 2) [0, 0, 1, 0, 0, 0, 1, 1, 1, 1]).ccMax := by
refine ⟨by decide, by decide, by decide, by decide⟩

/-- Claim C9 amended: for `K` requests running the handlers' atomic
increment / load / compare-and-swap / deferred-decrement block under any
interleaving, `currentConcurrent` stays within `[0, K]`, the ghost
maximum `ccMax` is at most `K`, `peakConcurrent` never decreases at any
step, and once all `K ≥ 1` requests complete, `currentConcurrent` is
back to 0 and `peakConcurrent` equals the largest `currentConcurrent`
value any thread observed with its post-increment load — which is at
most, but (per the counterexample) not always equal to, the maximum
concurrency actually reached. -/
theorem C9_peak_concurrency (K : Nat) (sched : List Nat) :
    0 ≤ (runSched (initPeakState K) sched).cc ∧
    (runSched (initPeakState K) sched).cc ≤ (K : Int) ∧
    (runSched (initPeakState K) sched).ccMax ≤ (K : Int) ∧
    (∀ i, (runSched (initPeakState K) sched).peak ≤
       (sysStep (runSched (initPeakState K) sched) i).peak) ∧
    (1 ≤ K → allDone (runSched (initPeakState K) sched) →
       (runSched (initPeakState K) sched).cc = 0 ∧
       (runSched (initPeakState K) sched).peak =
         maxCur (runSched (initPeakState K) sched).threads ∧
       (runSched (initPeakState K) sched).peak ≤
         (runSched (initPeakState K) sched).ccMax) := by
have hlen : (runSched (initPeakState K) sched).threads.length = K := by
  rw [runSched_length]
  simp [initPeakState]
have hcnt := regionCount_le (runSched (initPeakState K) sched).threads
obtain ⟨ccEq, ccMaxGE, ccMaxLen, peakNN, peakLE, thread, peakChar⟩ :=
  runSched_inv (inv_init K) sched
refine ⟨by omega, by omega, by omega,
  fun i => sysStep_peak_mono _ i, fun hK hdone => ⟨?_, ?_, peakLE⟩⟩
· have h0 := allDone_regionCount hdone
  omega
· have hub : maxCur (runSched (initPeakState K) sched).threads ≤
      (runSched (initPeakState K) sched).peak := by
    refine maxCur_le _ _ peakNN (fun t ht => ?_)
    obtain ⟨j, hj⟩ := List.mem_iff_getElem?.mp ht
    exact (thread j t hj).2.1 (Or.inr (hdone t ht))
  have hlb : (runSched (initPeakState K) sched).peak ≤
      maxCur (runSched (initPeakState K) sched).threads := by
    rcases peakChar with h0 | ⟨j, u, hj, _, hcu⟩
    · -- peak = 0 is impossible once a thread finished: its observed
      -- value is at least 1 and bounded by the peak
      have h0lt : 0 < (runSched (initPeakState K) sched).threads.length := by
        omega
      have ht0 := List.getElem?_eq_getElem h0lt
      have hmem := List.getElem?_mem ht0
      have h1 := (thread 0 _ ht0).2.2
        (by rw [hdone _ hmem]; simp) (by rw [hdone _ hmem]; simp)
      have h2 := (thread 0 _ ht0).2.1 (Or.inr (hdone _ hmem))
      omega
    · rw [← hcu]
      exact le_maxCur _ u (List.getElem?_mem hj)
  omega

/-- Closed witness for C9 amended: one request, the canonical schedule;
the final peak equals the single observed concurrency value and the
counter returns to 0. -/
theorem C9_peak_concurrency_witness :
    allDone (runSched (initPeakState 1) [0, 0, 0, 0, 0]) ∧
    (runSched (initPeakState 1) [0, 0, 0, 0, 0]).cc = 0 ∧
    (runSched (initPeakState 1) [0, 0, 0, 0, 0]).peak =
      maxCur (runSched (initPeakState 1) [0, 0, 0, 0, 0]).threads := by
have h := (C9_peak_concurrency 1 [0, 0, 0, 0, 0]).2.2.2.2
  (by decide) (by decide)
exact ⟨by decide, h.1, h.2.1⟩

end EthSpeed
